import Mathlib

/-
Verification development for the "Theoness" platformer repository.

The per-frame game loop of src/src/components/Game.tsx (single-player) and
src/src/components/MultiplayerGame.tsx (multiplayer) is shallowly embedded
here.  JavaScript numbers are modelled by rationals (all game arithmetic is
addition, subtraction, multiplication by small constants, and comparison, so
the rational model is exact for the constants appearing in the source).
-/

/-- Axis-aligned rectangle, the shape shared by `GameObject`, `Platform`,
`Fish` and the scratcher/scratching-post records of the source. -/
structure Rect where
  x : ℚ
  y : ℚ
  width : ℚ
  height : ℚ
deriving DecidableEq

/-- Embedding of `checkCollision` (identical in Game.tsx line 321 and
MultiplayerGame.tsx line 636): strict AABB overlap. -/
def checkCollision (r1 r2 : Rect) : Bool :=
  decide (r1.x < r2.x + r2.width ∧ r1.x + r1.width > r2.x ∧
          r1.y < r2.y + r2.height ∧ r1.y + r1.height > r2.y)

theorem checkCollision_iff (r1 r2 : Rect) :
    checkCollision r1 r2 = true ↔
      (r1.x < r2.x + r2.width ∧ r1.x + r1.width > r2.x ∧
       r1.y < r2.y + r2.height ∧ r1.y + r1.height > r2.y) := by
  simp [checkCollision]

/-- The player entity (`kitty` ref in both game components): position,
bounding box and velocity.  Animation bookkeeping fields are irrelevant to
the verified claims and omitted. -/
structure Kitty where
  x : ℚ
  y : ℚ
  width : ℚ
  height : ℚ
  vx : ℚ
  vy : ℚ
deriving DecidableEq

def Kitty.rect (k : Kitty) : Rect := ⟨k.x, k.y, k.width, k.height⟩

/-- A static platform rectangle, as in both components. -/
structure Platform where
  x : ℚ
  y : ℚ
  width : ℚ
  height : ℚ
deriving DecidableEq

def Platform.rect (p : Platform) : Rect := ⟨p.x, p.y, p.width, p.height⟩

/-- The landing trigger of the platform-collision loop (Game.tsx lines
383-391, MultiplayerGame.tsx lines 706-713): the entity overlaps the
platform, is moving downward, and its top is above the platform top. -/
def lands (k : Kitty) (p : Platform) : Prop :=
  checkCollision k.rect p.rect = true ∧ 0 < k.vy ∧ k.y < p.y

instance (k : Kitty) (p : Platform) : Decidable (lands k p) := by
  unfold lands; infer_instance

/-- Body of the platform-collision `forEach`: on a landing trigger snap the
entity bottom to the platform top and zero the vertical velocity, otherwise
leave the entity untouched. -/
def landingStep (k : Kitty) (p : Platform) : Kitty :=
  if lands k p then { k with y := p.y - k.height, vy := 0 } else k

/-- The whole platform-collision loop: `platforms.current.forEach(...)`. -/
def resolvePlatforms (ps : List Platform) (k : Kitty) : Kitty :=
  ps.foldl landingStep k

theorem landingStep_of_not_lands {k : Kitty} {p : Platform}
    (h : ¬ lands k p) : landingStep k p = k := by
  simp [landingStep, h]

theorem landingStep_of_lands {k : Kitty} {p : Platform}
    (h : lands k p) : landingStep k p = { k with y := p.y - k.height, vy := 0 } := by
  simp [landingStep, h]

/-- Once the vertical velocity is not positive no platform can trigger a
landing, so the collision loop is the identity. -/
theorem resolvePlatforms_of_vy_nonpos (ps : List Platform) (k : Kitty)
    (h : k.vy ≤ 0) : resolvePlatforms ps k = k := by
  induction ps with
  | nil => rfl
  | cons p ps ih =>
    have hnot : ¬ lands k p := by
      intro hl
      exact absurd hl.2.1 (not_lt.mpr h)
    simp [resolvePlatforms, List.foldl_cons, landingStep_of_not_lands hnot] at *
    exact ih

/-- Platform tops are pairwise either equal or separated by at least `h`
(the entity height).  Every level layout in the repository satisfies this
with `h = 40`, the kitty height. -/
def topsSeparated (h : ℚ) (ps : List Platform) : Prop :=
  ∀ p ∈ ps, ∀ q ∈ ps, p.y = q.y ∨ h ≤ p.y - q.y ∨ h ≤ q.y - p.y

instance (h : ℚ) (ps : List Platform) : Decidable (topsSeparated h ps) := by
  unfold topsSeparated; infer_instance

/-- A landing trigger puts the platform top strictly between the entity top
and the entity bottom. -/
theorem lands_top_between {k : Kitty} {p : Platform} (h : lands k p) :
    k.y < p.y ∧ p.y < k.y + k.height := by
  obtain ⟨hc, _, hy⟩ := h
  have := (checkCollision_iff k.rect p.rect).mp hc
  exact ⟨hy, by simpa [Kitty.rect, Platform.rect] using this.2.2.2⟩

theorem lands_tops_eq {k : Kitty} {ps : List Platform} {p q : Platform}
    (hsep : topsSeparated k.height ps) (hp : p ∈ ps) (hq : q ∈ ps)
    (hlp : lands k p) (hlq : lands k q) : p.y = q.y := by
  obtain ⟨hp1, hp2⟩ := lands_top_between hlp
  obtain ⟨hq1, hq2⟩ := lands_top_between hlq
  rcases hsep p hp q hq with h | h | h
  · exact h
  · linarith
  · linarith

/-- If some platform in the list triggers a landing on `k`, the collision
loop produces the snapped state of one triggering platform. -/
theorem resolvePlatforms_lands {ps : List Platform} {k : Kitty}
    (hex : ∃ p ∈ ps, lands k p) :
    ∃ q ∈ ps, lands k q ∧
      resolvePlatforms ps k = { k with y := q.y - k.height, vy := 0 } := by
  induction ps with
  | nil => obtain ⟨p, hp, _⟩ := hex; cases hp
  | cons r ps ih =>
    by_cases hr : lands k r
    · refine ⟨r, List.mem_cons_self r ps, hr, ?_⟩
      have h0 : resolvePlatforms (r :: ps) k =
          resolvePlatforms ps { k with y := r.y - k.height, vy := 0 } := by
        simp [resolvePlatforms, List.foldl_cons, landingStep_of_lands hr]
      rw [h0, resolvePlatforms_of_vy_nonpos _ _ (by simp)]
    · have h0 : resolvePlatforms (r :: ps) k = resolvePlatforms ps k := by
        simp [resolvePlatforms, List.foldl_cons, landingStep_of_not_lands hr]
      obtain ⟨p, hp, hlp⟩ := hex
      rcases List.mem_cons.mp hp with rfl | hp
      · exact absurd hlp hr
      · obtain ⟨q, hq, hlq, hres⟩ := ih ⟨p, hp, hlp⟩
        exact ⟨q, List.mem_cons_of_mem _ hq, hlq, h0.trans hres⟩

/-- If no platform triggers a landing, the collision loop is the identity:
side and underside overlaps are left unresolved. -/
theorem resolvePlatforms_of_no_lands {ps : List Platform} {k : Kitty}
    (hnone : ∀ p ∈ ps, ¬ lands k p) : resolvePlatforms ps k = k := by
  induction ps with
  | nil => rfl
  | cons r ps ih =>
    have h0 : ¬ lands k r := hnone r (List.mem_cons_self r ps)
    have hrest : ∀ p ∈ ps, ¬ lands k p := fun p hp =>
      hnone p (List.mem_cons_of_mem _ hp)
    simpa [resolvePlatforms, List.foldl_cons, landingStep_of_not_lands h0]
      using ih hrest

/-- C1.  Platform landing resolution: after the per-tick position update,
for each platform that the player overlaps while moving downward with its
top above the platform top, the collision loop leaves the player with its
bottom exactly on that platform top and zero vertical velocity; when no
platform triggers (side or underside overlaps only), the loop changes
nothing.  The separation hypothesis (platform tops pairwise equal or at
least one entity-height apart) holds for every level layout in the
repository. -/
theorem claim_C1_platform_landing (ps : List Platform) (k : Kitty)
    (hsep : topsSeparated k.height ps) :
    (∀ p ∈ ps, lands k p →
      (resolvePlatforms ps k).y + k.height = p.y ∧
      (resolvePlatforms ps k).vy = 0) ∧
    ((∀ p ∈ ps, ¬ lands k p) → resolvePlatforms ps k = k) := by
  constructor
  · intro p hp hlp
    obtain ⟨q, hq, hlq, hres⟩ := resolvePlatforms_lands ⟨p, hp, hlp⟩
    have hy : q.y = p.y := lands_tops_eq hsep hq hp hlq hlp
    rw [hres]
    constructor
    · simp [hy]
    · rfl
  · exact resolvePlatforms_of_no_lands

/-- Platform layout of single-player level 1 (Game.tsx lines 102-107). -/
def gameLevel1Platforms : List Platform :=
  [⟨0, 580, 800, 20⟩, ⟨200, 450, 150, 20⟩, ⟨500, 400, 100, 20⟩,
   ⟨150, 300, 120, 20⟩]

/-- Platform layout of single-player level 2 (Game.tsx lines 117-124). -/
def gameLevel2Platforms : List Platform :=
  [⟨0, 580, 800, 20⟩, ⟨100, 450, 80, 20⟩, ⟨300, 350, 80, 20⟩,
   ⟨150, 250, 80, 20⟩, ⟨400, 150, 80, 20⟩, ⟨600, 200, 120, 20⟩]

/-- Platform layout of single-player level 3 (Game.tsx lines 135-146). -/
def gameLevel3Platforms : List Platform :=
  [⟨0, 580, 800, 20⟩, ⟨100, 500, 100, 20⟩, ⟨300, 450, 100, 20⟩,
   ⟨500, 400, 100, 20⟩, ⟨650, 350, 100, 20⟩, ⟨100, 350, 80, 20⟩,
   ⟨300, 250, 80, 20⟩, ⟨500, 200, 80, 20⟩, ⟨200, 150, 100, 20⟩,
   ⟨450, 100, 80, 20⟩]

/-- The state of the kitty just before the collision loop on a tick where it
is falling into the ground platform of level 1. -/
def c1TestKitty : Kitty := ⟨250, 545, 40, 40, 0, 6⟩

/-- Witness for C1: on level 1, a kitty falling into the ground platform is
snapped to the ground top (y + height = 580) with zero vertical velocity. -/
theorem claim_C1_witness :
    topsSeparated c1TestKitty.height gameLevel1Platforms ∧
    (resolvePlatforms gameLevel1Platforms c1TestKitty).y + c1TestKitty.height = 580 ∧
    (resolvePlatforms gameLevel1Platforms c1TestKitty).vy = 0 :=
  ⟨by simp [topsSeparated, gameLevel1Platforms, c1TestKitty]; norm_num,
   (claim_C1_platform_landing gameLevel1Platforms c1TestKitty
      (by simp [topsSeparated, gameLevel1Platforms, c1TestKitty]; norm_num)).1
     ⟨0, 580, 800, 20⟩ (by simp [gameLevel1Platforms])
     (by simp [lands, checkCollision, c1TestKitty, Kitty.rect, Platform.rect]; norm_num)⟩

/-- Embedding of `Math.abs` as used by the jump guards. -/
def mathAbs (q : ℚ) : ℚ := if q < 0 then -q else q

/-- `JUMP_FORCE` of Game.tsx line 164. -/
def JUMP_FORCE_SP : ℚ := -12

/-- The literal `0.1` of the single-player jump guard (Game.tsx line 360). -/
def JUMP_THRESHOLD_SP : ℚ := 1/10

/-- `JUMP_FORCE` of MultiplayerGame.tsx line 211. -/
def JUMP_FORCE_MP : ℚ := -15

/-- `CANVAS_HEIGHT` of MultiplayerGame.tsx line 214. -/
def CANVAS_HEIGHT_MP : ℚ := 1200

/-- Grounded check of the single-player jump (Game.tsx lines 362-367): some
platform horizontally overlaps the kitty and the kitty bottom is within 5
pixels of that platform top. -/
def onPlatformSP (ps : List Platform) (k : Kitty) : Bool :=
  ps.any fun p =>
    decide (k.x < p.x + p.width ∧ k.x + k.width > p.x ∧
            mathAbs (k.y + k.height - p.y) < 5)

/-- Single-player jump phase (Game.tsx lines 359-373): the impulse
`vy := JUMP_FORCE` fires only when the jump key is held, `|vy| < 0.1`, and
the grounded check passes. -/
def jumpStepSP (jumpHeld : Bool) (ps : List Platform) (k : Kitty) : Kitty :=
  if jumpHeld = true ∧ mathAbs k.vy < JUMP_THRESHOLD_SP then
    (if onPlatformSP ps k then { k with vy := JUMP_FORCE_SP } else k)
  else k

/-- Grounded check of the multiplayer jump (MultiplayerGame.tsx lines
675-690): either the kitty bottom is within 5 pixels of the world floor, or
some platform passes the tightened horizontal-overlap test with bottom within
10 pixels of its top and `vy >= -1`. -/
def onPlatformMP (ps : List Platform) (k : Kitty) : Bool :=
  if k.y + k.height ≥ CANVAS_HEIGHT_MP - 5 then true
  else
    ps.any fun p =>
      decide (k.x + k.width > p.x + 5 ∧ k.x < p.x + p.width - 5 ∧
              mathAbs (k.y + k.height - p.y) ≤ 10 ∧ k.vy ≥ -1)

/-- Multiplayer jump phase (MultiplayerGame.tsx lines 674-696): the impulse
fires only when the jump key is held, the grounded check passes, and
`|vy| < 2`. -/
def jumpStepMP (jumpHeld : Bool) (ps : List Platform) (k : Kitty) : Kitty :=
  if jumpHeld then
    (if onPlatformMP ps k = true ∧ mathAbs k.vy < 2 then
      { k with vy := JUMP_FORCE_MP }
     else k)
  else k

/-- C2.  A jump impulse is applied only if the pre-jump vertical speed is
below the threshold (0.1 single-player, 2 multiplayer) and the grounded
check passes; in particular, whenever the grounded check fails (the player
is airborne) holding the jump key changes nothing, in both variants. -/
theorem claim_C2_jump_guard (j : Bool) (ps : List Platform) (k : Kitty) :
    (jumpStepSP j ps k ≠ k →
      mathAbs k.vy < JUMP_THRESHOLD_SP ∧ onPlatformSP ps k = true ∧
      jumpStepSP j ps k = { k with vy := JUMP_FORCE_SP }) ∧
    (onPlatformSP ps k = false → jumpStepSP j ps k = k) ∧
    (jumpStepMP j ps k ≠ k →
      mathAbs k.vy < 2 ∧ onPlatformMP ps k = true ∧
      jumpStepMP j ps k = { k with vy := JUMP_FORCE_MP }) ∧
    (onPlatformMP ps k = false → jumpStepMP j ps k = k) := by
  refine ⟨?_, ?_, ?_, ?_⟩
  · intro hne
    by_cases h1 : j = true ∧ mathAbs k.vy < JUMP_THRESHOLD_SP
    · by_cases h2 : onPlatformSP ps k = true
      · exact ⟨h1.2, h2, by simp [jumpStepSP, h1, h2]⟩
      · exact absurd (by simp [jumpStepSP, h1, h2]) hne
    · exact absurd (by simp [jumpStepSP, h1]) hne
  · intro h2
    simp [jumpStepSP, h2]
  · intro hne
    by_cases h1 : j = true
    · by_cases h2 : onPlatformMP ps k = true ∧ mathAbs k.vy < 2
      · exact ⟨h2.2, h2.1, by simp [jumpStepMP, h1, h2]⟩
      · exact absurd (by simp [jumpStepMP, h1, h2]) hne
    · exact absurd (by simp [jumpStepMP, h1]) hne
  · intro h2
    by_cases h1 : j = true <;> simp [jumpStepMP, h1, h2]

/-- An airborne kitty: bottom at 140, far from every platform top of level 1
and from the multiplayer world floor. -/
def c2TestKitty : Kitty := ⟨100, 100, 40, 40, 0, 5⟩

/-- Witness for C2: while airborne, holding the jump key leaves the state
unchanged in both variants. -/
theorem claim_C2_witness :
    onPlatformSP gameLevel1Platforms c2TestKitty = false ∧
    onPlatformMP gameLevel1Platforms c2TestKitty = false ∧
    jumpStepSP true gameLevel1Platforms c2TestKitty = c2TestKitty ∧
    jumpStepMP true gameLevel1Platforms c2TestKitty = c2TestKitty := by
  have hSP : onPlatformSP gameLevel1Platforms c2TestKitty = false := by
    norm_num [onPlatformSP, mathAbs, gameLevel1Platforms, c2TestKitty]
  have hMP : onPlatformMP gameLevel1Platforms c2TestKitty = false := by
    norm_num [onPlatformMP, mathAbs, gameLevel1Platforms, c2TestKitty,
      CANVAS_HEIGHT_MP]
  exact ⟨hSP, hMP,
    (claim_C2_jump_guard true gameLevel1Platforms c2TestKitty).2.1 hSP,
    (claim_C2_jump_guard true gameLevel1Platforms c2TestKitty).2.2.2 hMP⟩

/-- Horizontal clamping of the per-tick boundary check (Game.tsx lines
394-397, MultiplayerGame.tsx lines 716-719). -/
def clampX (W : ℚ) (k : Kitty) : Kitty :=
  let k1 := if k.x < 0 then { k with x := 0 } else k
  if k1.x + k1.width > W then { k1 with x := W - k1.width } else k1

/-- The full boundary check of a tick: clamp `x` into the world, then reset
the entity to the respawn point with zero velocity if it fell below the
world bottom (Game.tsx lines 393-404, MultiplayerGame.tsx lines 715-726). -/
def boundaryCheck (W H rx ry : ℚ) (k : Kitty) : Kitty :=
  let k2 := clampX W k
  if k2.y > H then { k2 with x := rx, y := ry, vx := 0, vy := 0 } else k2

theorem clampX_y (W : ℚ) (k : Kitty) : (clampX W k).y = k.y := by
  unfold clampX
  dsimp only
  split_ifs <;> rfl

theorem clampX_width (W : ℚ) (k : Kitty) : (clampX W k).width = k.width := by
  unfold clampX
  dsimp only
  split_ifs <;> rfl

theorem clampX_range (W : ℚ) (k : Kitty) (hkW : k.width ≤ W) :
    0 ≤ (clampX W k).x ∧ (clampX W k).x + (clampX W k).width ≤ W := by
  unfold clampX
  dsimp only
  split_ifs with h1 h2 h2 <;> constructor <;> simp_all

theorem boundaryCheck_spec (W H rx ry : ℚ) (k : Kitty)
    (hrx0 : 0 ≤ rx) (hrxW : rx + k.width ≤ W) (hkW : k.width ≤ W) :
    (0 ≤ (boundaryCheck W H rx ry k).x ∧
     (boundaryCheck W H rx ry k).x + (boundaryCheck W H rx ry k).width ≤ W) ∧
    (H < k.y →
      boundaryCheck W H rx ry k = { k with x := rx, y := ry, vx := 0, vy := 0 }) := by
  unfold boundaryCheck
  dsimp only
  obtain ⟨hc0, hcW⟩ := clampX_range W k hkW
  split_ifs with h
  · refine ⟨⟨hrx0, ?_⟩, fun _ => ?_⟩
    · simpa [clampX_width] using hrxW
    · have heq : clampX W k =
          { k with x := (clampX W k).x } := by
        unfold clampX
        dsimp only
        split_ifs <;> rfl
      rw [heq]
  · refine ⟨⟨hc0, hcW⟩, fun hy => ?_⟩
    rw [clampX_y] at h
    exact absurd hy h

/-- Single-player boundary check: world 800x600, respawn (100, 300)
(Game.tsx lines 393-404). -/
def boundaryCheckSP : Kitty → Kitty := boundaryCheck 800 600 100 300

/-- Multiplayer boundary check: world 800x1200, respawn (400, 1120)
(MultiplayerGame.tsx lines 715-726). -/
def boundaryCheckMP : Kitty → Kitty := boundaryCheck 800 1200 400 1120

/-- C6.  World-bounds handling: after the boundary check the horizontal
position lies in `[0, world_width - entity_width]`, and whenever the player
fell below the world bottom it is reset to the respawn coordinate with zero
velocity, in both variants (entity width 40 as in the source). -/
theorem claim_C6_world_bounds (k : Kitty) (hw : k.width = 40) :
    (0 ≤ (boundaryCheckSP k).x ∧
     (boundaryCheckSP k).x + (boundaryCheckSP k).width ≤ 800) ∧
    (600 < k.y →
      boundaryCheckSP k = { k with x := 100, y := 300, vx := 0, vy := 0 }) ∧
    (0 ≤ (boundaryCheckMP k).x ∧
     (boundaryCheckMP k).x + (boundaryCheckMP k).width ≤ 800) ∧
    (1200 < k.y →
      boundaryCheckMP k = { k with x := 400, y := 1120, vx := 0, vy := 0 }) := by
  have hSP := boundaryCheck_spec 800 600 100 300 k (by norm_num)
    (by rw [hw]; norm_num) (by rw [hw]; norm_num)
  have hMP := boundaryCheck_spec 800 1200 400 1120 k (by norm_num)
    (by rw [hw]; norm_num) (by rw [hw]; norm_num)
  exact ⟨hSP.1, hSP.2, hMP.1, hMP.2⟩

/-- A kitty that has fallen below both world bottoms. -/
def c6TestKitty : Kitty := ⟨-30, 1250, 40, 40, -2, 9⟩

/-- Witness for C6: the fallen kitty is reset to the respawn point of each
variant with zero velocity, and its clamped `x` is in range. -/
theorem claim_C6_witness :
    (0 ≤ (boundaryCheckSP c6TestKitty).x ∧
     (boundaryCheckSP c6TestKitty).x + (boundaryCheckSP c6TestKitty).width ≤ 800) ∧
    boundaryCheckSP c6TestKitty =
      { c6TestKitty with x := 100, y := 300, vx := 0, vy := 0 } ∧
    boundaryCheckMP c6TestKitty =
      { c6TestKitty with x := 400, y := 1120, vx := 0, vy := 0 } := by
  have h := claim_C6_world_bounds c6TestKitty (by norm_num [c6TestKitty])
  exact ⟨h.1, h.2.1 (by norm_num [c6TestKitty]), h.2.2.2 (by norm_num [c6TestKitty])⟩

/-- Initial session timer of the single-player game: `setTimeLeft(90)` in
`startGame` (Game.tsx line 595). -/
def singlePlayerStartTime : ℕ := 90

/-- The `time_taken` value persisted by `saveGameResult` (Game.tsx line
183): `60 - timeLeft`. -/
def savedTimeTaken (timeLeft : ℤ) : ℤ := 60 - timeLeft

/-- C9.  The recorded `time_taken` equals 60 minus the remaining timer, yet
the single-player timer starts at 90 seconds, so any game that ends with
more than 60 seconds remaining is recorded with a negative `time_taken`. -/
theorem claim_C9_negative_time_taken (timeLeft : ℤ) (h : 60 < timeLeft) :
    savedTimeTaken timeLeft = 60 - timeLeft ∧
    savedTimeTaken timeLeft < 0 ∧
    (singlePlayerStartTime : ℤ) = 90 ∧ 60 < (singlePlayerStartTime : ℤ) := by
  refine ⟨rfl, ?_, rfl, by norm_num [singlePlayerStartTime]⟩
  simp only [savedTimeTaken]
  omega

/-- Witness for C9: a game saved with the full 90 seconds still on the
clock records `time_taken = -30`. -/
theorem claim_C9_witness :
    savedTimeTaken 90 = 60 - 90 ∧ savedTimeTaken 90 < 0 ∧
    (singlePlayerStartTime : ℤ) = 90 ∧ 60 < (singlePlayerStartTime : ℤ) :=
  claim_C9_negative_time_taken 90 (by norm_num)

/-- Room status values of the `rooms` table. -/
inductive RoomStatus
  | waiting
  | playing
  | completed
deriving DecidableEq

/-- Handler of the `room_players` change subscription (MultiplayerGame.tsx
lines 257-274): after reloading, if the online-player query succeeded and
returned zero rows, the room status is updated to `completed`; on a failed
query (`none`) nothing happens. -/
def closeRoomOnPlayersChange (onlineCount : Option ℕ) (st : RoomStatus) :
    RoomStatus :=
  if onlineCount = some 0 then .completed else st

/-- End of `loadPlayers` (MultiplayerGame.tsx lines 373-379): if the loaded
online-player list is empty the room status is updated to `completed`. -/
def closeRoomOnLoad (onlinePlayerCount : ℕ) (st : RoomStatus) : RoomStatus :=
  if onlinePlayerCount = 0 then .completed else st

/-- C10.  Whenever a room-player change notification is processed, or the
player list is loaded, and the room is found to have zero online players,
the room status becomes `completed` — in particular it is left neither
`waiting` nor `playing`, whatever it was before. -/
theorem claim_C10_room_closed_when_empty (st : RoomStatus) :
    closeRoomOnPlayersChange (some 0) st = .completed ∧
    closeRoomOnLoad 0 st = .completed ∧
    closeRoomOnPlayersChange (some 0) st ≠ .waiting ∧
    closeRoomOnPlayersChange (some 0) st ≠ .playing ∧
    closeRoomOnLoad 0 st ≠ .waiting ∧
    closeRoomOnLoad 0 st ≠ .playing := by
  simp [closeRoomOnPlayersChange, closeRoomOnLoad]

/-- Embedding of `updatePlayerPosition` (MultiplayerGame.tsx lines 385-403):
given the current time and the `lastPositionUpdate` ref, either drop the
report (returning the unchanged ref) or accept it (returning the report
time and storing it in the ref).  Times are in milliseconds. -/
def throttleStep (now last : ℤ) : Option ℤ × ℤ :=
  if now - last < 100 then (none, last) else (some now, now)

/-- Replay of a sequence of per-tick call times through `throttleStep`,
collecting the timestamps of the accepted position reports. -/
def runThrottle (last : ℤ) : List ℤ → List ℤ
  | [] => []
  | t :: ts =>
    match throttleStep t last with
    | (none, l) => runThrottle l ts
    | (some r, _) => r :: runThrottle r ts

theorem runThrottle_cons_lt {t last : ℤ} (ts : List ℤ)
    (h : t - last < 100) : runThrottle last (t :: ts) = runThrottle last ts := by
  simp [runThrottle, throttleStep, h]

theorem runThrottle_cons_ge {t last : ℤ} (ts : List ℤ)
    (h : ¬ t - last < 100) :
    runThrottle last (t :: ts) = t :: runThrottle t ts := by
  simp [runThrottle, throttleStep, h]

theorem runThrottle_spec (ts : List ℤ) (last : ℤ) :
    List.Chain' (fun a b => 100 ≤ b - a) (runThrottle last ts) ∧
    (∀ h, (runThrottle last ts).head? = some h → 100 ≤ h - last) := by
  induction ts generalizing last with
  | nil => exact ⟨List.chain'_nil, by simp [runThrottle]⟩
  | cons t ts ih =>
    by_cases hlt : t - last < 100
    · rw [runThrottle_cons_lt ts hlt]
      exact ih last
    · rw [runThrottle_cons_ge ts hlt]
      obtain ⟨hchain, hhead⟩ := ih t
      refine ⟨List.chain'_cons'.mpr ⟨?_, hchain⟩, ?_⟩
      · intro b hb
        exact hhead b hb
      · intro h hh
        simp only [List.head?_cons, Option.some.injEq] at hh
        omega

/-- C7.  Outbound position reports are throttled: in any replay of tick
call times, consecutive accepted report timestamps differ by at least the
100 ms throttle interval; a call inside the window produces no report and
leaves the stored last-update time unchanged (dropped, not queued), while
an accepted call stores its own timestamp. -/
theorem claim_C7_position_throttle (ts : List ℤ) (last : ℤ) :
    List.Chain' (fun a b => 100 ≤ b - a) (runThrottle last ts) ∧
    (∀ now l : ℤ, now - l < 100 → throttleStep now l = (none, l)) ∧
    (∀ now l : ℤ, ¬ now - l < 100 → throttleStep now l = (some now, now)) := by
  refine ⟨(runThrottle_spec ts last).1, ?_, ?_⟩
  · intro now l h
    simp [throttleStep, h]
  · intro now l h
    simp [throttleStep, h]

/-- Witness for C7 at a concrete call trace: of ticks at 50, 120, 180 and
230 ms (ref starting at 0) only the reports at 120 and 230 are accepted,
and the tick at 150 ms against a ref of 120 is dropped with the ref kept. -/
theorem claim_C7_witness :
    runThrottle 0 [50, 120, 180, 230] = [120, 230] ∧
    List.Chain' (fun a b => 100 ≤ b - a) (runThrottle 0 [50, 120, 180, 230]) ∧
    throttleStep 150 120 = (none, 120) :=
  ⟨by decide,
   (claim_C7_position_throttle [50, 120, 180, 230] 0).1,
   (claim_C7_position_throttle [50, 120, 180, 230] 0).2.1 150 120 (by decide)⟩

/-- A multiplayer collectible (`Fish` interface of MultiplayerGame.tsx):
rectangle plus `collected` flag and carrying player. -/
structure MFish where
  x : ℚ
  y : ℚ
  width : ℚ
  height : ℚ
  collected : Bool
  carriedBy : Option String
deriving DecidableEq

def MFish.rect (f : MFish) : Rect := ⟨f.x, f.y, f.width, f.height⟩

/-- A multiplayer level layout (`levelConfigs` entries). -/
structure LevelConfig where
  platforms : List Platform
  fishes : List MFish

/-- Level 1 of MultiplayerGame.tsx lines 119-133 (basic vertical climb). -/
def mpLevel1 : LevelConfig :=
  { platforms := [⟨0, 1180, 800, 20⟩, ⟨100, 1000, 200, 20⟩, ⟨500, 850, 200, 20⟩,
      ⟨150, 700, 200, 20⟩, ⟨450, 550, 200, 20⟩, ⟨200, 400, 200, 20⟩,
      ⟨300, 250, 200, 20⟩],
    fishes := [⟨375, 220, 25, 20, false, none⟩] }

/-- Level 2 of MultiplayerGame.tsx lines 134-150 (zigzag pattern). -/
def mpLevel2 : LevelConfig :=
  { platforms := [⟨0, 1180, 800, 20⟩, ⟨600, 1050, 150, 20⟩, ⟨50, 920, 150, 20⟩,
      ⟨600, 790, 150, 20⟩, ⟨50, 660, 150, 20⟩, ⟨550, 530, 150, 20⟩,
      ⟨100, 400, 150, 20⟩, ⟨500, 270, 150, 20⟩, ⟨300, 140, 200, 20⟩],
    fishes := [⟨375, 110, 25, 20, false, none⟩] }

/-- Level 3 of MultiplayerGame.tsx lines 151-167 (center tower). -/
def mpLevel3 : LevelConfig :=
  { platforms := [⟨0, 1180, 800, 20⟩, ⟨350, 1050, 100, 20⟩, ⟨250, 920, 300, 20⟩,
      ⟨350, 790, 100, 20⟩, ⟨200, 660, 400, 20⟩, ⟨350, 530, 100, 20⟩,
      ⟨250, 400, 300, 20⟩, ⟨350, 270, 100, 20⟩, ⟨300, 140, 200, 20⟩],
    fishes := [⟨375, 110, 25, 20, false, none⟩] }

/-- Level 4 of MultiplayerGame.tsx lines 168-185 (side jumps). -/
def mpLevel4 : LevelConfig :=
  { platforms := [⟨0, 1180, 800, 20⟩, ⟨50, 1050, 120, 20⟩, ⟨630, 940, 120, 20⟩,
      ⟨50, 830, 120, 20⟩, ⟨630, 720, 120, 20⟩, ⟨100, 610, 120, 20⟩,
      ⟨580, 500, 120, 20⟩, ⟨150, 390, 120, 20⟩, ⟨530, 280, 120, 20⟩,
      ⟨340, 170, 120, 20⟩],
    fishes := [⟨375, 140, 25, 20, false, none⟩] }

/-- Level 5 of MultiplayerGame.tsx lines 186-202 (stairs). -/
def mpLevel5 : LevelConfig :=
  { platforms := [⟨0, 1180, 800, 20⟩, ⟨0, 1050, 160, 20⟩, ⟨160, 920, 160, 20⟩,
      ⟨320, 790, 160, 20⟩, ⟨480, 660, 160, 20⟩, ⟨320, 530, 160, 20⟩,
      ⟨160, 400, 160, 20⟩, ⟨320, 270, 160, 20⟩, ⟨320, 140, 160, 20⟩],
    fishes := [⟨375, 110, 25, 20, false, none⟩] }

/-- The five level layouts of MultiplayerGame.tsx lines 118-203. -/
def levelConfigs : List LevelConfig :=
  [mpLevel1, mpLevel2, mpLevel3, mpLevel4, mpLevel5]

/-- The delivery goal (`scratchingPost` ref, MultiplayerGame.tsx line 208). -/
def scratchingPost : Rect := ⟨375, 40, 50, 60⟩

/-- Local interaction state of a multiplayer client: the kitty, the fish
list ref, the `carriedFish` index state, and the local player's
`fish_collected` counter. -/
structure MPState where
  kitty : Kitty
  fishes : List MFish
  carriedFish : Option ℕ
  fishCollected : ℕ
deriving DecidableEq

/-- In-place mutation `fishes.current[i].carriedBy = me`. -/
def markCarried (me : String) : ℕ → List MFish → List MFish
  | _, [] => []
  | 0, f :: fs => { f with carriedBy := some me } :: fs
  | n+1, f :: fs => f :: markCarried me n fs

/-- In-place mutation `fishes.current[i].collected = true`. -/
def markCollected : ℕ → List MFish → List MFish
  | _, [] => []
  | 0, f :: fs => { f with collected := true } :: fs
  | n+1, f :: fs => f :: markCollected n fs

/-- Embedding of `collectFish` (MultiplayerGame.tsx lines 414-435).  `c0` is
the render-captured `carriedFish` value used by its early-return guard. -/
def collectFishF (me : String) (c0 : Option ℕ) (t : MPState) (i : ℕ) : MPState :=
  if c0 ≠ none then t
  else { t with fishes := markCarried me i t.fishes, carriedFish := some i }

/-- One iteration of the fish-collection `forEach` (MultiplayerGame.tsx
lines 732-736): pick up fish `i` when it is uncollected, carried by nobody,
the captured `carriedFish` is null, and the kitty overlaps it. -/
def pickupIter (me : String) (c0 : Option ℕ) (t : MPState) (i : ℕ) : MPState :=
  match t.fishes.get? i with
  | none => t
  | some f =>
    if f.collected = false ∧ f.carriedBy = none ∧ c0 = none ∧
       checkCollision t.kitty.rect f.rect = true
    then collectFishF me c0 t i
    else t

/-- The whole fish-collection loop of a tick. -/
def tickPickup (me : String) (s : MPState) : MPState :=
  (List.range s.fishes.length).foldl (pickupIter me s.carriedFish) s

/-- Embedding of `deliverFish` (MultiplayerGame.tsx lines 437-476): mark the
carried fish collected, clear `carriedFish`, bump the local player's
counter.  `c0` is the captured `carriedFish` used by its guard and index. -/
def deliverFishF (c0 : Option ℕ) (t : MPState) : MPState :=
  match c0 with
  | none => t
  | some i =>
    { t with fishes := markCollected i t.fishes, carriedFish := none,
             fishCollected := t.fishCollected + 1 }

/-- The delivery check of a tick (MultiplayerGame.tsx lines 739-741): call
`deliverFish` only when carrying a fish and touching the scratching post. -/
def deliverPhase (c0 : Option ℕ) (t : MPState) : MPState :=
  if c0 ≠ none ∧ checkCollision t.kitty.rect scratchingPost = true
  then deliverFishF c0 t else t

/-- Interaction part of one tick: the pickup loop, then the delivery check,
both guarded by the tick's captured `carriedFish` value. -/
def tickInteract (me : String) (s : MPState) : MPState :=
  deliverPhase s.carriedFish (tickPickup me s)

theorem markCarried_length (me : String) (i : ℕ) (fs : List MFish) :
    (markCarried me i fs).length = fs.length := by
  induction fs generalizing i with
  | nil => cases i <;> rfl
  | cons f fs ih =>
    cases i with
    | zero => rfl
    | succ i => simpa [markCarried] using ih i

theorem markCollected_length (i : ℕ) (fs : List MFish) :
    (markCollected i fs).length = fs.length := by
  induction fs generalizing i with
  | nil => cases i <;> rfl
  | cons f fs ih =>
    cases i with
    | zero => rfl
    | succ i => simpa [markCollected] using ih i

theorem collectFishF_length (me : String) (c0 : Option ℕ) (t : MPState)
    (i : ℕ) : (collectFishF me c0 t i).fishes.length = t.fishes.length := by
  unfold collectFishF
  split_ifs <;> simp [markCarried_length]

theorem pickupIter_length (me : String) (c0 : Option ℕ) (t : MPState)
    (i : ℕ) : (pickupIter me c0 t i).fishes.length = t.fishes.length := by
  unfold pickupIter
  rcases t.fishes.get? i with _ | f
  · rfl
  · dsimp only
    split_ifs
    · exact collectFishF_length me c0 t i
    · rfl

theorem foldl_pickupIter_length (me : String) (c0 : Option ℕ)
    (l : List ℕ) (t : MPState) :
    ((l.foldl (pickupIter me c0) t).fishes.length = t.fishes.length) := by
  induction l generalizing t with
  | nil => rfl
  | cons i l ih => rw [List.foldl_cons, ih, pickupIter_length]

theorem tickPickup_length (me : String) (s : MPState) :
    (tickPickup me s).fishes.length = s.fishes.length :=
  foldl_pickupIter_length me s.carriedFish _ s

theorem deliverFishF_length (c0 : Option ℕ) (t : MPState) :
    (deliverFishF c0 t).fishes.length = t.fishes.length := by
  rcases c0 with _ | i
  · rfl
  · simp [deliverFishF, markCollected_length]

theorem deliverPhase_length (c0 : Option ℕ) (t : MPState) :
    (deliverPhase c0 t).fishes.length = t.fishes.length := by
  unfold deliverPhase
  split_ifs
  · exact deliverFishF_length c0 t
  · rfl

theorem tickInteract_length (me : String) (s : MPState) :
    (tickInteract me s).fishes.length = s.fishes.length := by
  unfold tickInteract
  rw [deliverPhase_length, tickPickup_length]

theorem levelConfigs_fishes_length (cfg : LevelConfig)
    (h : cfg ∈ levelConfigs) : cfg.fishes.length = 1 := by
  simp only [levelConfigs, List.mem_cons, List.mem_singleton] at h
  rcases h with rfl | rfl | rfl | rfl | rfl | h
  · rfl
  · rfl
  · rfl
  · rfl
  · rfl
  · cases h

/-- The transitions the local client performs on its interaction state:
a game-loop tick (arbitrary physics/input movement followed by the pickup
loop and delivery check), the level re-initialisation of `initializeLevel`
(random layout, carry cleared), and the `collected`-flag reset of
`startNextRound`. -/
inductive MPStep (me : String) : MPState → MPState → Prop
  | tick (s : MPState) (k : Kitty) :
      MPStep me s (tickInteract me { s with kitty := k })
  | newLevel (s : MPState) (cfg : LevelConfig) (hcfg : cfg ∈ levelConfigs) :
      MPStep me s { s with fishes := cfg.fishes, carriedFish := none }
  | resetCollected (s : MPState) :
      MPStep me s
        { s with fishes := s.fishes.map (fun f => { f with collected := false }) }

/-- States reachable from a game start (`startGame` runs `initializeLevel`
on a random layout with no carried fish). -/
inductive MPReachable (me : String) : MPState → Prop
  | init (k : Kitty) (cfg : LevelConfig) (hcfg : cfg ∈ levelConfigs) :
      MPReachable me ⟨k, cfg.fishes, none, 0⟩
  | step (s t : MPState) (hs : MPReachable me s) (hst : MPStep me s t) :
      MPReachable me t

/-- Number of fish currently carried by player `me`. -/
def countCarriedBy (me : String) (fs : List MFish) : ℕ :=
  fs.countP (fun f => decide (f.carriedBy = some me))

theorem mpReachable_fishes_length (me : String) (s : MPState)
    (h : MPReachable me s) : s.fishes.length = 1 := by
  induction h with
  | init k cfg hcfg => exact levelConfigs_fishes_length cfg hcfg
  | step s t hs hst ih =>
    cases hst with
    | tick k =>
      rw [tickInteract_length]
      exact ih
    | newLevel cfg hcfg => exact levelConfigs_fishes_length cfg hcfg
    | resetCollected => simpa using ih

theorem pickupIter_of_carrying (me : String) (c0 : Option ℕ) (t : MPState)
    (i : ℕ) (h : c0 ≠ none) : pickupIter me c0 t i = t := by
  unfold pickupIter
  rcases t.fishes.get? i with _ | f
  · rfl
  · dsimp only
    split_ifs with hcond
    · exact absurd hcond.2.2.1 h
    · rfl

/-- C3 guard, part "not already carrying": when the captured `carriedFish`
is non-null, the whole pickup loop does nothing. -/
theorem tickPickup_of_carrying (me : String) (s : MPState)
    (h : s.carriedFish ≠ none) : tickPickup me s = s := by
  unfold tickPickup
  generalize List.range s.fishes.length = l
  induction l with
  | nil => rfl
  | cons i l ih =>
    rw [List.foldl_cons, pickupIter_of_carrying me _ s i h, ih]

theorem markCarried_get?_ne (me : String) {i j : ℕ} (fs : List MFish)
    (hne : i ≠ j) : (markCarried me j fs).get? i = fs.get? i := by
  induction fs generalizing i j with
  | nil => cases j <;> rfl
  | cons f fs ih =>
    cases j with
    | zero =>
      cases i with
      | zero => exact absurd rfl hne
      | succ i => rfl
    | succ j =>
      cases i with
      | zero => rfl
      | succ i =>
        simpa [markCarried] using ih (fun h => hne (by omega))

theorem pickupIter_get?_frozen (me : String) (c0 : Option ℕ) (t : MPState)
    {i : ℕ} {f : MFish} (j : ℕ) (hget : t.fishes.get? i = some f)
    (hbad : f.collected = true ∨ f.carriedBy ≠ none) :
    (pickupIter me c0 t j).fishes.get? i = some f := by
  unfold pickupIter
  rcases hj : t.fishes.get? j with _ | g
  · exact hget
  · dsimp only
    split_ifs with hcond
    · unfold collectFishF
      split_ifs with hc0
      · exact hget
      · dsimp only
        by_cases hij : i = j
        · subst hij
          rw [hget] at hj
          cases hj
          rcases hbad with hb | hb
          · rw [hcond.1] at hb; cases hb
          · exact absurd hcond.2.1 hb
        · rw [markCarried_get?_ne me t.fishes hij]
          exact hget
    · exact hget

theorem foldl_pickupIter_get?_frozen (me : String) (c0 : Option ℕ)
    {i : ℕ} {f : MFish} (l : List ℕ) (t : MPState)
    (hget : t.fishes.get? i = some f)
    (hbad : f.collected = true ∨ f.carriedBy ≠ none) :
    ((l.foldl (pickupIter me c0) t).fishes.get? i = some f) := by
  induction l generalizing t with
  | nil => exact hget
  | cons j l ih =>
    rw [List.foldl_cons]
    exact ih _ (pickupIter_get?_frozen me c0 t j hget hbad)

/-- C3.  Single-carry invariant: in every state reachable by the local
multiplayer client at most one fish has `carriedBy` equal to the local
player; moreover the pickup loop fires only when the player is not already
carrying (a non-null captured `carriedFish` makes it a no-op) and never
touches a fish that is already collected or carried by someone. -/
theorem claim_C3_single_carry (me : String) :
    (∀ s, MPReachable me s → countCarriedBy me s.fishes ≤ 1) ∧
    (∀ s, s.carriedFish ≠ none → tickPickup me s = s) ∧
    (∀ s (i : ℕ) (f : MFish), s.fishes.get? i = some f →
      f.collected = true ∨ f.carriedBy ≠ none →
      (tickPickup me s).fishes.get? i = some f) := by
  refine ⟨?_, tickPickup_of_carrying me, ?_⟩
  · intro s h
    calc countCarriedBy me s.fishes ≤ s.fishes.length :=
          List.countP_le_length _
      _ ≤ 1 := le_of_eq (mpReachable_fishes_length me s h)
  · intro s i f hget hbad
    exact foldl_pickupIter_get?_frozen me s.carriedFish _ s hget hbad

/-- The multiplayer spawn kitty (MultiplayerGame.tsx lines 101-115). -/
def mpSpawnKitty : Kitty := ⟨100, 1120, 40, 40, 0, 0⟩

/-- The freshly initialised interaction state on level 1. -/
def mpInitState : MPState := ⟨mpSpawnKitty, mpLevel1.fishes, none, 0⟩

/-- The same state while carrying fish 0. -/
def mpCarryState : MPState := ⟨mpSpawnKitty, mpLevel1.fishes, some 0, 0⟩

/-- Witness for C3: the fresh level-1 start state satisfies the single-carry
bound, and the pickup loop of a carrying state is a no-op. -/
theorem claim_C3_witness :
    countCarriedBy ("p1") mpInitState.fishes ≤ 1 ∧
    tickPickup ("p1") mpCarryState = mpCarryState :=
  ⟨(claim_C3_single_carry ("p1")).1 mpInitState
      (MPReachable.init mpSpawnKitty mpLevel1 (List.mem_cons_self mpLevel1 _)),
   (claim_C3_single_carry ("p1")).2.1 mpCarryState (by simp [mpCarryState])⟩

theorem foldl_pickupIter_fishCollected (me : String) (c0 : Option ℕ)
    (l : List ℕ) (t : MPState) :
    ((l.foldl (pickupIter me c0) t).fishCollected = t.fishCollected) := by
  induction l generalizing t with
  | nil => rfl
  | cons i l ih =>
    rw [List.foldl_cons, ih]
    unfold pickupIter
    rcases t.fishes.get? i with _ | f
    · rfl
    · dsimp only
      split_ifs
      · unfold collectFishF
        split_ifs <;> rfl
      · rfl

/-- C4.  Delivery while not carrying is a no-op: on a tick whose captured
`carriedFish` is null, contact with the scratching post changes neither the
fish list, nor the carried-fish state, nor the collected counter — the
delivery check simply skips, `deliverFish` itself returns early, and the
whole tick leaves the local counter untouched. -/
theorem claim_C4_delivery_noop (t : MPState)
    (_hcol : checkCollision t.kitty.rect scratchingPost = true) :
    deliverPhase none t = t ∧
    deliverFishF none t = t ∧
    (∀ (me : String) (s : MPState), s.carriedFish = none →
      tickInteract me s = tickPickup me s ∧
      (tickInteract me s).fishCollected = s.fishCollected) := by
  refine ⟨?_, rfl, ?_⟩
  · unfold deliverPhase
    simp
  · intro me s hnone
    have h1 : tickInteract me s = tickPickup me s := by
      unfold tickInteract
      rw [hnone]
      unfold deliverPhase
      simp
    refine ⟨h1, ?_⟩
    rw [h1]
    exact foldl_pickupIter_fishCollected me s.carriedFish _ s

/-- A kitty standing on the scratching post location. -/
def c4TestState : MPState := ⟨⟨380, 50, 40, 40, 0, 0⟩, mpLevel1.fishes, none, 3⟩

/-- Witness for C4: a non-carrying state touching the post is unchanged by
the delivery check, and its counter survives the whole tick. -/
theorem claim_C4_witness :
    checkCollision c4TestState.kitty.rect scratchingPost = true ∧
    deliverPhase none c4TestState = c4TestState ∧
    (tickInteract ("p1") c4TestState).fishCollected = c4TestState.fishCollected := by
  have hcol : checkCollision c4TestState.kitty.rect scratchingPost = true := by
    norm_num [checkCollision, c4TestState, Kitty.rect, scratchingPost]
  exact ⟨hcol, (claim_C4_delivery_noop c4TestState hcol).1,
    ((claim_C4_delivery_noop c4TestState hcol).2.2 ("p1") c4TestState rfl).2⟩

/-- A loaded `room_players` row as the client sees it (the `loadPlayers`
query filters on `is_online = true`, so this list models exactly the
currently-online players). -/
structure PlayerRec where
  user_id : String
  fish_collected : ℕ
deriving DecidableEq

/-- Embedding of `checkWinCondition` (MultiplayerGame.tsx lines 478-484):
every loaded player meets the round quota and the list is non-empty. -/
def checkWinConditionF (players : List PlayerRec) (currentRound : ℕ) : Bool :=
  players.all (fun p => decide (currentRound ≤ p.fish_collected)) &&
    decide (0 < players.length)

/-- Round/session state of the multiplayer client. -/
structure Session where
  players : List PlayerRec
  currentRound : ℕ
  timeLeft : ℕ
  status : RoomStatus
  gameStarted : Bool
deriving DecidableEq

/-- The three events that can change the round state: the win-condition
check (`startNextRound` when it passes), the 3-second timer scheduled by a
successful `deliverFish` (lines 466-471, unconditional), and one tick of
the 1 Hz round timer (lines 287-295, ending the game at zero). -/
inductive GEvent
  | winCheck
  | deliveryTimeout
  | timerTick
deriving DecidableEq

/-- Embedding of `endGame(won)` (MultiplayerGame.tsx lines 549-571). -/
def endGameF (won : Bool) (s : Session) : Session :=
  { s with status := if won then .completed else .waiting,
           gameStarted := false, currentRound := 1 }

/-- One round-state transition per event, as performed by the source. -/
def sessionStep : GEvent → Session → Session
  | .winCheck, s =>
    if checkWinConditionF s.players s.currentRound then
      { s with currentRound := s.currentRound + 1, timeLeft := 60 }
    else s
  | .deliveryTimeout, s => { s with currentRound := s.currentRound + 1, timeLeft := 60 }
  | .timerTick, s =>
    if s.timeLeft ≤ 1 then { endGameF false s with timeLeft := 0 }
    else { s with timeLeft := s.timeLeft - 1 }

/-- The round advanced across an event. -/
def roundAdvanced (e : GEvent) (s : Session) : Prop :=
  (sessionStep e s).currentRound = s.currentRound + 1

/-- Every currently-online player's cumulative count meets the round. -/
def allOnlineQuotaMet (s : Session) : Prop :=
  ∀ p ∈ s.players, s.currentRound ≤ p.fish_collected

/-- A session in round 1 whose only online player has delivered nothing. -/
def c5CounterSession : Session := ⟨[⟨("p2"), 0⟩], 1, 30, .playing, true⟩

/-- Counterexample to C5 as stated: the 3-second timer scheduled by
`deliverFish` advances the round unconditionally, here while the online
player "p2" has collected 0 < 1 fish, so "round advances only if every
online player meets the quota" is false. -/
theorem claim_C5_counterexample :
    roundAdvanced .deliveryTimeout c5CounterSession ∧
    ¬ allOnlineQuotaMet c5CounterSession := by
  constructor
  · rfl
  · intro h
    have := h ⟨("p2"), 0⟩ (List.mem_cons_self _ _)
    simp [c5CounterSession] at this

/-- C5 (amended).  The round advances iff the win check passes (at least
one online player and every online player's count is at least the current
round) or the post-delivery 3-second timer fires (which advances
unconditionally); the round timer reaching 0 instead ends the game —
status `waiting`, loop stopped — and never advances the round. -/
theorem sessionStep_winCheck (s : Session) :
    sessionStep .winCheck s =
      if checkWinConditionF s.players s.currentRound then
        { s with currentRound := s.currentRound + 1, timeLeft := 60 }
      else s := rfl

theorem sessionStep_deliveryTimeout (s : Session) :
    sessionStep .deliveryTimeout s =
      { s with currentRound := s.currentRound + 1, timeLeft := 60 } := rfl

theorem sessionStep_timerTick (s : Session) :
    sessionStep .timerTick s =
      if s.timeLeft ≤ 1 then { endGameF false s with timeLeft := 0 }
      else { s with timeLeft := s.timeLeft - 1 } := rfl

theorem claim_C5_round_advance (e : GEvent) (s : Session)
    (hr : 1 ≤ s.currentRound) :
    (roundAdvanced e s ↔
      (e = .winCheck ∧ s.players ≠ [] ∧ allOnlineQuotaMet s) ∨
      e = .deliveryTimeout) ∧
    (e = .timerTick → s.timeLeft ≤ 1 →
      (sessionStep e s).status = .waiting ∧
      (sessionStep e s).gameStarted = false ∧
      ¬ roundAdvanced e s) := by
  cases e with
  | winCheck =>
    refine ⟨?_, by intro h; cases h⟩
    by_cases hw : checkWinConditionF s.players s.currentRound = true
    · have hne : s.players ≠ [] ∧ allOnlineQuotaMet s := by
        simp only [checkWinConditionF, Bool.and_eq_true, List.all_eq_true,
          decide_eq_true_eq] at hw
        exact ⟨List.ne_nil_of_length_pos hw.2, hw.1⟩
      have hadv : roundAdvanced .winCheck s := by
        unfold roundAdvanced
        rw [sessionStep_winCheck, if_pos hw]
      simp [hadv, hne.1, hne.2]
    · have hne : ¬ (s.players ≠ [] ∧ allOnlineQuotaMet s) := by
        intro hcon
        apply hw
        simp only [checkWinConditionF, Bool.and_eq_true, List.all_eq_true,
          decide_eq_true_eq]
        exact ⟨hcon.2, List.length_pos_of_ne_nil hcon.1⟩
      have hnadv : ¬ roundAdvanced .winCheck s := by
        unfold roundAdvanced
        rw [sessionStep_winCheck, if_neg hw]
        omega
      simp [hnadv, hne]
  | deliveryTimeout =>
    refine ⟨?_, by intro h; cases h⟩
    have hadv : roundAdvanced .deliveryTimeout s := rfl
    simp [hadv]
  | timerTick =>
    constructor
    · constructor
      · intro h
        exfalso
        unfold roundAdvanced at h
        rw [sessionStep_timerTick] at h
        split_ifs at h with ht
        · have h2 : (1 : ℕ) = s.currentRound + 1 := h
          omega
        · have h2 : s.currentRound = s.currentRound + 1 := h
          omega
      · rintro (⟨hcon, _⟩ | hcon) <;> cases hcon
    · intro _ ht
      have h1 : sessionStep GEvent.timerTick s =
          { endGameF false s with timeLeft := 0 } := by
        rw [sessionStep_timerTick, if_pos ht]
      refine ⟨by rw [h1]; rfl, by rw [h1]; rfl, ?_⟩
      intro hcon
      unfold roundAdvanced at hcon
      rw [h1] at hcon
      have h2 : (1 : ℕ) = s.currentRound + 1 := hcon
      omega

/-- A round-2 session whose sole online player has met the quota. -/
def c5WinSession : Session := ⟨[⟨("p1"), 2⟩], 2, 30, .playing, true⟩

/-- A round-2 session whose timer is about to expire. -/
def c5TimerSession : Session := ⟨[⟨("p1"), 2⟩], 2, 1, .playing, true⟩

/-- Witness for the amended C5: the win check advances a session whose only
player meets the quota, and an expiring timer ends the game (status
`waiting`, loop stopped) without advancing the round. -/
theorem claim_C5_witness :
    roundAdvanced .winCheck c5WinSession ∧
    (sessionStep .timerTick c5TimerSession).status = .waiting ∧
    (sessionStep .timerTick c5TimerSession).gameStarted = false ∧
    ¬ roundAdvanced .timerTick c5TimerSession := by
  have hwin := (claim_C5_round_advance .winCheck c5WinSession (by decide)).1
  have htimer := (claim_C5_round_advance .timerTick c5TimerSession (by decide)).2
    rfl (by decide)
  exact ⟨hwin.mpr (Or.inl ⟨rfl, by decide,
      by intro p hp; simp [c5WinSession] at hp; simp [hp, c5WinSession]⟩),
    htimer.1, htimer.2.1, htimer.2.2⟩

/-- Output alphabet of `md5(...)::text`: lowercase hexadecimal digits. -/
def hexLowerDigits : List Char :=
  ['0', '1', '2', '3', '4', '5'] ++ ['6', '7', '8', '9'] ++
    ['a', 'b', 'c', 'd', 'e', 'f']

/-- Alphabet of the generated room codes: uppercase hexadecimal digits. -/
def roomCodeAlphabet : List Char :=
  ['0', '1', '2', '3', '4', '5'] ++ ['6', '7', '8', '9'] ++
    ['A', 'B', 'C', 'D', 'E', 'F']

/-- One candidate code: `upper(substring(md5(random()::text) from 1 for 6))`
applied to a raw md5 hex string, modelled over character lists. -/
def mkRoomCode (raw : List Char) : List Char :=
  (raw.take 6).map Char.toUpper

/-- Embedding of `public.generate_room_code` (src/unnamed/part_000): loop
over a stream of md5 outputs, returning the first candidate that does not
equal the code of any existing room; `none` models a stream that never
yields a fresh code (the SQL loop would keep retrying). -/
def generate_room_code (existing : List (List Char)) :
    List (List Char) → Option (List Char)
  | [] => none
  | raw :: raws =>
    if mkRoomCode raw ∈ existing then generate_room_code existing raws
    else some (mkRoomCode raw)

theorem toUpper_hex {c : Char} (h : c ∈ hexLowerDigits) :
    c.toUpper ∈ roomCodeAlphabet := by
  fin_cases h <;> decide

/-- C8.  The room-code generator returns a 6-character string over the
uppercase hex alphabet that differs from every room code existing at the
time of the uniqueness check, retrying candidates until a unique one is
found.  Raw inputs model md5 hex text: length at least 6 (md5 yields 32)
over lowercase hex digits. -/
theorem claim_C8_room_code (existing raws : List (List Char))
    (hraw : ∀ raw ∈ raws, 6 ≤ raw.length ∧ ∀ c ∈ raw, c ∈ hexLowerDigits)
    (code : List Char)
    (hres : generate_room_code existing raws = some code) :
    code ∉ existing ∧ code.length = 6 ∧ ∀ c ∈ code, c ∈ roomCodeAlphabet := by
  induction raws with
  | nil => cases hres
  | cons raw raws ih =>
    rw [generate_room_code] at hres
    split_ifs at hres with hmem
    · exact ih (fun r hr => hraw r (List.mem_cons_of_mem _ hr)) hres
    · obtain ⟨hlen, hhex⟩ := hraw raw (List.mem_cons_self _ _)
      cases hres
      refine ⟨hmem, ?_, ?_⟩
      · simp [mkRoomCode, List.length_take, Nat.min_eq_left hlen]
      · intro c hc
        simp only [mkRoomCode, List.mem_map] at hc
        obtain ⟨d, hd, rfl⟩ := hc
        exact toUpper_hex (hhex d (List.mem_of_mem_take hd))

/-- One md5-style raw string and one existing room code. -/
def c8Raws : List (List Char) :=
  [['9', 'e', '1', '0', '7', 'd', '9', 'd', '7', '2']]

def c8Existing : List (List Char) := [['A', 'B', 'C', '1', '2', '3']]

/-- Witness for C8: from the raw md5 text `9e107d9d72` the generator
returns `9E107D`, which is fresh, 6 characters long and uppercase hex. -/
theorem claim_C8_witness :
    generate_room_code c8Existing c8Raws =
      some ['9', 'E', '1', '0', '7', 'D'] ∧
    ['9', 'E', '1', '0', '7', 'D'] ∉ c8Existing ∧
    (['9', 'E', '1', '0', '7', 'D'] : List Char).length = 6 ∧
    ∀ c ∈ (['9', 'E', '1', '0', '7', 'D'] : List Char), c ∈ roomCodeAlphabet :=
  ⟨by decide,
   claim_C8_room_code c8Existing c8Raws (by decide) _ (by decide)⟩
